import Mathlib

/-!
Shallow embedding of the podcast-scraper core (`scrappers.py` together with
`utils.py`, the current implementation of the repository; `podcast_scraper.py`
is an earlier draft of the same class and is superseded where the two differ).

Machine-level conventions of the embedding:
* Python strings are `String`, Python ints are `Int` (arbitrary precision in
  Python, so no wrap-around modelling is needed).
* `datetime` values are modelled as integer numbers of seconds;
  `timedelta(days = d)` is `d * 86400` seconds.
* Fallible Python code (statements that can raise) returns `Except Err` or an
  `Option Err` component; an uncaught exception is an `Err` value that the
  caller propagates.
* The filesystem is an explicit value: a list of entries (path, creation time,
  directory flag).  `os.path.exists` / `os.listdir` / `os.mkdir` / `os.remove`
  are functions over that value.
* `re.match` (the Python regex engine, an external library) is abstracted as a
  parameter `rm : String → String → Bool`; `os.remove`'s success or failure is
  abstracted as a parameter `rOk : Entry → Bool` (true = the removal succeeds,
  false = it raises OSError).
-/

/-- Errors that the embedded Python code can raise. -/
inductive Err where
  | keyError
  | nameError
  | osError
  | attributeError
  | generic (msg : String)
deriving DecidableEq, Repr

/-- Admission verdicts of `Scraper.__check_episode`: the strings "OK", "SKIP",
"HALT" of the source. -/
inductive Verdict where
  | ok
  | skip
  | halt
deriving DecidableEq, Repr

/-- One filesystem entry: an absolute path, its creation time (`os.path.getctime`),
and whether it is a directory (`os.path.isdir`). -/
structure Entry where
  path : String
  ctime : Int
  isDir : Bool
deriving DecidableEq, Repr

/-- The filesystem is the list of existing entries. -/
abbrev FS := List Entry

/-- Model of `os.path.exists`. -/
def pathExists (fs : FS) (p : String) : Bool :=
  fs.any (fun e => e.path = p)

/-- Whether a string starts with a slash. -/
def startsWithSlash (s : String) : Bool :=
  match s.toList with
  | '/' :: _ => true
  | _ => false

/-- Whether a string ends with a slash. -/
def endsWithSlash (s : String) : Bool :=
  match s.toList.reverse with
  | '/' :: _ => true
  | _ => false

/-- Model of `posixpath.join` for two components: if the second is absolute it
wins; otherwise it is appended after a separator (none added when the first
component is empty or already ends in a slash). -/
def joinTwo (a b : String) : String :=
  if startsWithSlash b then b
  else if a = "" ∨ endsWithSlash a = true then a ++ b
  else a ++ "/" ++ b

/-- Model of `posixpath.dirname`: everything up to the last slash, with
trailing slashes stripped unless the head is all slashes. -/
def dirname (p : String) : String :=
  let head := ((p.toList.reverse.dropWhile (fun c => c ≠ '/')).reverse)
  if head.isEmpty ∨ head.all (fun c => c = '/') then String.mk head
  else String.mk ((head.reverse.dropWhile (fun c => c = '/')).reverse)

/-- Model of `os.listdir path` (as full entries rather than bare names; the
source always re-joins the names with `path`, so the two views agree). -/
def listdir (fs : FS) (d : String) : List Entry :=
  fs.filter (fun e => dirname e.path = d)

/-- Model of Python `str.zfill`: left-pad with zeros to `width`, keeping a
leading sign character in front of the padding. -/
def zfill (s : String) (width : Nat) : String :=
  if s.length ≥ width then s
  else
    match s.toList with
    | [] => String.mk (List.replicate width '0')
    | c :: rest =>
      if c = '+' ∨ c = '-' then
        String.mk (c :: (List.replicate (width - s.length) '0' ++ rest))
      else
        String.mk (List.replicate (width - s.length) '0' ++ (c :: rest))

/-- Characters removed by `utils.tidy_up_title`, the regex class
`[!?$/:;"\u0000\u0093â]` of `utils.py`. -/
def tidyForbidden : List Char := ['!', '?', '$', '/', ':', ';', '"', '\u0000', '\u0093', 'â']

/-- The substitution `re.sub(', ', ' - ', s)` on the character list: replace
every non-overlapping occurrence of ", " with " - ", scanning left to right. -/
def replaceCommaSpace : List Char → List Char
  | [] => []
  | [c] => [c]
  | c1 :: c2 :: rest =>
    if c1 = ',' ∧ c2 = ' ' then ' ' :: '-' :: ' ' :: replaceCommaSpace rest
    else c1 :: replaceCommaSpace (c2 :: rest)

/-- Model of `utils.tidy_up_title`: remove the unwanted characters, then
replace every ", " with " - ". -/
def tidy_up_title (title : String) : String :=
  String.mk (replaceCommaSpace (title.toList.filter (fun c => decide (c ∉ tidyForbidden))))

/-- Model of `utils.matches_any`, with `re.match` abstracted as `rm`. -/
def matches_any (rm : String → String → Bool) (s : String) (regexes : List String) : Bool :=
  regexes.any (fun r => rm r s)

/-- Substitution keys recognised by the download-path template
(`{ep_title}`, `{season}`, `{ep_number}`). -/
inductive FieldKey where
  | ep_title
  | season
  | ep_number
deriving DecidableEq, Repr

/-- One piece of the `download_path_format` template: literal text or a
substitution field. -/
inductive TemplatePart where
  | lit (s : String)
  | field (k : FieldKey)
deriving DecidableEq, Repr

/-- Model of `str.format(**path_values)` on a parsed template: substitute each
field from `vals`, raising KeyError when a referenced key is absent. -/
def renderTemplate : List TemplatePart → (FieldKey → Option String) → Except Err String
  | [], _ => Except.ok ""
  | TemplatePart.lit s :: rest, vals =>
    (renderTemplate rest vals).map (fun t => s ++ t)
  | TemplatePart.field k :: rest, vals =>
    match vals k with
    | none => Except.error Err.keyError
    | some v => (renderTemplate rest vals).map (fun t => v ++ t)

/-- Per-scraper configuration, the fields read by `Scraper.__init__`. -/
structure Config where
  feed_url : String
  save_path : String
  delay : Int
  name : String
  min_season_width : Nat
  min_ep_number_width : Nat
  download_path_format : List TemplatePart
  max_episodes : Int
  halt_on_existing : Bool
  skip_if_matching : List String
  fetch_if_matching : List String
  get_episode_number_from_title : Bool
  delete_episodes_if_over_limit : Bool
  max_episode_age_in_days : Int
deriving DecidableEq, Repr

/-- The episode-data record produced by `get_episode_data`: dictionary keys
become fields, possibly-absent keys become `Option`. -/
structure EpisodeData where
  title : String
  unparsed_title : String
  episode : Option String
  season : Option String
  url : Option String
  published_date : Int
deriving DecidableEq, Repr

/-- Model of `Scraper.__determine_download_path`: sanitise the title, zero-pad
season and episode numbers, instantiate the template, and join under
`save_path/podcast_name`.  Raises KeyError when the episode number is absent or
when the template references a season the episode does not have. -/
def determine_download_path (cfg : Config) (ed : EpisodeData) : Except Err String :=
  match ed.episode with
  | none => Except.error Err.keyError
  | some epn =>
    let vals : FieldKey → Option String := fun k =>
      match k with
      | FieldKey.ep_title => some (tidy_up_title ed.title)
      | FieldKey.season => ed.season.map (fun s => zfill s cfg.min_season_width)
      | FieldKey.ep_number => some (zfill epn cfg.min_ep_number_width)
    (renderTemplate cfg.download_path_format vals).map
      (fun filename => joinTwo (joinTwo cfg.save_path cfg.name) filename)

/-- Model of `Scraper.__check_episode` (scrappers.py lines 133-187).  The
checks run in source order: missing URL, exclusion patterns, inclusion
patterns, already-downloaded, age limit, capacity limit.  `deleteFlag` is the
current value of `self.delete_episodes_if_over_limit` (it may have been forced
off by `scrape_podcast`), `now` is `datetime.datetime.now()`.  Returns the
verdict together with the `download_path` value stored into the record (absent
on the branches taken before it is computed). -/
def check_episode (rm : String → String → Bool) (cfg : Config) (deleteFlag : Bool)
    (fs : FS) (now : Int) (ed : EpisodeData) : Except Err (Verdict × Option String) :=
  if ed.url = none then Except.ok (Verdict.skip, none)
  else if cfg.skip_if_matching ≠ [] ∧ matches_any rm ed.unparsed_title cfg.skip_if_matching = true then
    Except.ok (Verdict.skip, none)
  else if cfg.fetch_if_matching ≠ [] ∧ matches_any rm ed.unparsed_title cfg.fetch_if_matching = false then
    Except.ok (Verdict.skip, none)
  else
    match determine_download_path cfg ed with
    | Except.error e => Except.error e
    | Except.ok dp =>
      if pathExists fs dp then
        if cfg.halt_on_existing then Except.ok (Verdict.halt, some dp)
        else Except.ok (Verdict.skip, some dp)
      else if 0 < cfg.max_episode_age_in_days ∧
          now - cfg.max_episode_age_in_days * 86400 > ed.published_date then
        Except.ok (Verdict.halt, some dp)
      else
        let current : Nat := if pathExists fs (dirname dp) then (listdir fs (dirname dp)).length else 0
        if current ≠ 0 ∧ (0 < cfg.max_episodes ∧ cfg.max_episodes ≤ (current : Int)) ∧ deleteFlag = false then
          Except.ok (Verdict.halt, some dp)
        else
          Except.ok (Verdict.ok, some dp)

/-- Model of the `for ep in episodes[0:over_limit]: os.remove(ep)` loop.
`rOk` tells whether `os.remove` succeeds on an entry; on the first failure the
OSError propagates, abandoning the rest of the loop.  Returns the entries
actually removed and the entry whose removal raised, if any. -/
def removeLoop (rOk : Entry → Bool) : List Entry → List Entry × Option Entry
  | [] => ([], none)
  | e :: rest =>
    if rOk e then
      let r := removeLoop rOk rest
      (e :: r.1, r.2)
    else ([], some e)

/-- The slice `episodes[0:over_limit]` of `__delete_old_episodes_if_needed`:
the non-directory entries of the target directory, sorted by creation time
(Python's `sorted` is a stable sort; insertion sort with a non-strict key
comparison realises the same stable order), truncated to
`over_limit = count - (max_episodes + 1)` entries. -/
def scheduled_deletions (maxEp : Int) (entries : List Entry) : List Entry :=
  (List.insertionSort (fun a b => a.ctime ≤ b.ctime) (entries.filter (fun e => !e.isDir))).take
    ((entries.length : Int) - (maxEp + 1)).toNat

/-- Core of `Scraper.__delete_old_episodes_if_needed` (scrappers.py lines
190-208), over the entry list of the target directory: compute
`over_limit = count - (max_episodes + 1)`; when deletion is enabled and the
overflow is positive, remove the `over_limit` oldest non-directory entries in
creation-time order.  Returns the removed entries and the raising entry, if
any. -/
def delete_old_core (rOk : Entry → Bool) (maxEp : Int) (deleteFlag : Bool)
    (entries : List Entry) : List Entry × Option Entry :=
  let over : Int := (entries.length : Int) - (maxEp + 1)
  if deleteFlag = true ∧ 0 < over then
    removeLoop rOk (scheduled_deletions maxEp entries)
  else ([], none)

/-- Directory contents left behind by a removal: the entries that were not
removed. -/
def residue (entries removed : List Entry) : List Entry :=
  entries.filter (fun e => decide (e ∉ removed))

/-- Mutable state threaded through one `scrape_podcast` run: the filesystem,
the current value of `self.delete_episodes_if_over_limit` (it is assigned at
the start of the run and read thereafter), an accumulated trace of the paths
removed by retention, and a clock supplying creation times for new entries. -/
structure RunState where
  fs : FS
  deleteFlag : Bool
  deletions : List String
  clock : Int
deriving Repr

/-- Adds a new filesystem entry stamped with the current clock. -/
def createEntry (st : RunState) (p : String) (isDir : Bool) : RunState :=
  { st with fs := ⟨p, st.clock, isDir⟩ :: st.fs, clock := st.clock + 1 }

/-- Model of the call `self.__delete_old_episodes_if_needed(download_path)`
inside a run: apply the core routine to the listing of the target directory,
drop the removed entries from the filesystem, record them in the deletion
trace, and propagate the OSError of a failed removal, if any. -/
def run_delete (rOk : Entry → Bool) (cfg : Config) (st : RunState) (dp : String) :
    RunState × Option Err :=
  let d := dirname dp
  let (removed, raised) := delete_old_core rOk cfg.max_episodes st.deleteFlag (listdir st.fs d)
  let st' := { st with
    fs := st.fs.filter (fun e => decide (e ∉ removed)),
    deletions := st.deletions ++ removed.map Entry.path }
  (st', raised.map (fun _ => Err.osError))

/-- Model of `Scraper.__download_episode` (scrappers.py lines 211-241).
Creates the podcast home directory when absent; then the source executes
`os.mkdir(season)` where `season` is an undefined name, so whenever the season
path does not yet exist a NameError is raised with no directory created.
Otherwise, retention runs when a limit is configured and deletion is enabled
(an OSError from it propagates), and finally the episode file is written (the
network stream is abstracted as an unconditional file creation; its failures
neither delete nor create entries).  The first component is the state after
whatever side effects happened before a raise. -/
def download_episode (rOk : Entry → Bool) (cfg : Config) (st : RunState)
    (dpo : Option String) : RunState × Option Err :=
  match dpo with
  | none => (st, some Err.keyError)
  | some dp =>
    let home := joinTwo cfg.save_path cfg.name
    let st1 := if pathExists st.fs home then st else createEntry st home true
    if pathExists st1.fs (dirname dp) = false then (st1, some Err.nameError)
    else
      let afterDelete :=
        if cfg.max_episodes ≠ 0 ∧ st1.deleteFlag = true then run_delete rOk cfg st1 dp
        else (st1, none)
      match afterDelete with
      | (st2, some e) => (st2, some e)
      | (st2, none) => (createEntry st2 dp false, none)

/-- One raw feed item as `scrape_episode` receives it.  `titleText` is the
value of `episode.title.text` on the raw node: `none` when the item has no
`<title>` element, in which case that access raises AttributeError (the
`.text` of a `None` find result).  `extraction` is the outcome of
`get_episode_data` on the item (an abstract feed adapter, so its result —
value or exception — is an input). -/
structure FeedItem where
  titleText : Option String
  extraction : Except Err EpisodeData
deriving Repr

/-- Model of the `except` block of `scrape_episode` (scrappers.py lines
81-84).  The `logging.critical` format call evaluates `episode.title.text`
before anything else: on an item without a title that access itself raises
AttributeError, which propagates instead of the SKIP return; otherwise the
exception is logged and "SKIP" is returned.  Either way the state keeps the
side effects the body performed before raising. -/
def except_handler (item : FeedItem) (st : RunState) : Except Err Verdict × RunState :=
  match item.titleText with
  | none => (Except.error Err.attributeError, st)
  | some _ => (Except.ok Verdict.skip, st)

/-- Model of `Scraper.scrape_episode` (scrappers.py lines 65-84): run
extraction, admission, and (on OK) the download inside a catch-all.  Any
exception raised by the body reaches `except_handler`, which yields SKIP when
it can log the raw title and re-raises AttributeError when it cannot.  The
first component is `Except.ok` of the returned status, or `Except.error` of an
exception propagating out of `scrape_episode`. -/
def scrape_episode_model (rm : String → String → Bool) (rOk : Entry → Bool)
    (cfg : Config) (now : Int) (st : RunState) (item : FeedItem) :
    Except Err Verdict × RunState :=
  match item.extraction with
  | Except.error _ => except_handler item st
  | Except.ok ed =>
    match check_episode rm cfg st.deleteFlag st.fs now ed with
    | Except.error _ => except_handler item st
    | Except.ok (v, dpo) =>
      if v = Verdict.ok then
        match download_episode rOk cfg st dpo with
        | (st', none) => (Except.ok Verdict.ok, st')
        | (st', some _) => except_handler item st'
      else (Except.ok v, st)

/-- How one `scrape_podcast` run ends: `halted` when some episode produced the
HALT verdict, `indexError` when the `while status != "HALT"` loop ran past the
end of the episode list and `episodes[i]` raised IndexError, and `raised e`
when an exception escaped `scrape_episode` (the handler re-raise) and aborted
the run. -/
inductive RunOutcome where
  | halted
  | indexError
  | raised (e : Err)
deriving DecidableEq, Repr

/-- Result of a run: final state, the trace of `(index, verdict)` pairs for
every episode whose evaluation returned a status (an episode whose evaluation
aborted the run contributes the `raised` outcome instead of a trace entry),
and how the loop ended. -/
structure RunResult where
  state : RunState
  trace : List (Nat × Verdict)
  outcome : RunOutcome
deriving Repr

/-- Model of the scan loop of `scrape_podcast` (scrappers.py lines 56-60):
`status = "OK"; i = 0; while status != "HALT": status = scrape_episode(episodes[i]); i += 1`.
The loop indexes the list before checking the bound, so exhausting the list
without a HALT raises IndexError; an exception escaping `scrape_episode`
propagates out of the loop. -/
def scrape_loop (rm : String → String → Bool) (rOk : Entry → Bool) (cfg : Config)
    (now : Int) : List FeedItem → Nat → RunState → RunResult
  | [], _, st => ⟨st, [], RunOutcome.indexError⟩
  | g :: rest, i, st =>
    let r0 := scrape_episode_model rm rOk cfg now st g
    match r0.1 with
    | Except.error e => ⟨r0.2, [], RunOutcome.raised e⟩
    | Except.ok v =>
      if v = Verdict.halt then ⟨r0.2, [(i, v)], RunOutcome.halted⟩
      else
        let r := scrape_loop rm rOk cfg now rest (i + 1) r0.2
        ⟨r.state, (i, v) :: r.trace, r.outcome⟩

/-- Model of `Scraper.scrape_podcast` (scrappers.py lines 40-62): compute the
podcast home path; when it does not exist, force
`self.delete_episodes_if_over_limit` off for the whole run (first-run safety);
then run the scan loop over the feed's episodes from index 0. -/
def scrape_podcast (rm : String → String → Bool) (rOk : Entry → Bool) (cfg : Config)
    (items : List FeedItem) (fs0 : FS) (now clock : Int) : RunResult :=
  let home := joinTwo cfg.save_path cfg.name
  let flag := if pathExists fs0 home then cfg.delete_episodes_if_over_limit else false
  scrape_loop rm rOk cfg now items 0 ⟨fs0, flag, [], clock⟩

/-- Whether the body of `scrape_episode` raises before producing a verdict:
either `get_episode_data` raised, or `__check_episode` raised (for example the
KeyError of an unset episode number inside the path computation). -/
def episode_processing_raises (rm : String → String → Bool) (cfg : Config)
    (st : RunState) (now : Int) (item : FeedItem) : Bool :=
  match item.extraction with
  | Except.error _ => true
  | Except.ok ed =>
    match check_episode rm cfg st.deleteFlag st.fs now ed with
    | Except.error _ => true
    | Except.ok _ => false

/-! Concrete fixtures used by the witnesses and counterexamples below.  The
matcher `rmFalse` matches nothing (the scenarios use empty pattern lists, so
`re.match` is never consulted); `rOkTrue` is a filesystem on which every
`os.remove` succeeds. -/

/-- A regex matcher that never matches. -/
def rmFalse : String → String → Bool := fun _ _ => false

/-- A removal oracle on which every `os.remove` succeeds. -/
def rOkTrue : Entry → Bool := fun _ => true

/-- A removal oracle on which removing the file `x/d` raises OSError. -/
def rOkNotD : Entry → Bool := fun e => !(e.path = "x/d")

/-- A baseline configuration: save root `r`, podcast `p`, the filename is the
bare episode number, no limits, no patterns. -/
def cfgBase : Config :=
  { feed_url := "f", save_path := "r", delay := 0, name := "p",
    min_season_width := 0, min_ep_number_width := 0,
    download_path_format := [TemplatePart.field FieldKey.ep_number],
    max_episodes := 0, halt_on_existing := true, skip_if_matching := [],
    fetch_if_matching := [], get_episode_number_from_title := false,
    delete_episodes_if_over_limit := false, max_episode_age_in_days := 0 }

/-- The baseline configuration with a limit of one episode and deletion on
overflow enabled. -/
def cfgDel : Config :=
  { cfgBase with
      max_episodes := 1, delete_episodes_if_over_limit := true,
      halt_on_existing := false }

/-- The baseline configuration with a limit of five episodes and deletion on
overflow disabled. -/
def cfgFive : Config := { cfgBase with max_episodes := 5 }

/-- The baseline configuration with a maximum episode age of thirty days. -/
def cfgAge30 : Config := { cfgBase with max_episode_age_in_days := 30 }

/-- The baseline configuration whose path template references `{season}`. -/
def cfgSeason : Config :=
  { cfgBase with download_path_format := [TemplatePart.field FieldKey.season] }

/-- The baseline configuration with an episode-number pad width of two. -/
def cfgPadTwo : Config := { cfgBase with min_ep_number_width := 2 }

/-- The baseline configuration changed only in fields that the download path
does not depend on. -/
def cfgIrrelevant : Config :=
  { cfgBase with
      feed_url := "g", delay := 9, max_episodes := 7,
      halt_on_existing := false, max_episode_age_in_days := 3 }

/-- A seasonless episode, number 1, with a download URL. -/
def edOne : EpisodeData :=
  { title := "t", unparsed_title := "t", episode := some "1",
    season := none, url := some "u", published_date := 0 }

/-- The same episode without a download URL. -/
def edNoUrl : EpisodeData := { edOne with url := none }

/-- The feed item carrying `edOne`: its raw `<title>` is present. -/
def itemOne : FeedItem := ⟨some "t", Except.ok edOne⟩

/-- The feed item carrying `edNoUrl`: its raw `<title>` is present. -/
def itemNoUrl : FeedItem := ⟨some "t", Except.ok edNoUrl⟩

/-- A feed item with no `<title>` element whose extraction raised: the access
`ep.title.text` fails during `get_episode_data` (scrappers.py line 274) and
fails again inside the except handler's log line. -/
def itemBad : FeedItem := ⟨none, Except.error Err.attributeError⟩

/-- A filesystem in which episode 1 of podcast `p` has already been fetched. -/
def fsExisting : FS := [⟨"r/p", 0, true⟩, ⟨"r/p/1", 1, false⟩]

/-- A filesystem in which podcast `p`'s directory holds five files. -/
def fsFive : FS :=
  [⟨"r/p", 0, true⟩, ⟨"r/p/a", 1, false⟩, ⟨"r/p/b", 2, false⟩,
   ⟨"r/p/c", 3, false⟩, ⟨"r/p/d", 4, false⟩, ⟨"r/p/e", 5, false⟩]

/-- An initial run state over the empty filesystem. -/
def st0 : RunState := ⟨[], false, [], 0⟩

/-- A directory listing of two files. -/
def entPair : List Entry := [⟨"x/a", 0, false⟩, ⟨"x/b", 1, false⟩]

/-- A directory listing of four files, creation times not in listing order. -/
def entFour : List Entry :=
  [⟨"x/a", 3, false⟩, ⟨"x/b", 0, false⟩, ⟨"x/c", 2, false⟩, ⟨"x/d", 1, false⟩]

/-- A directory listing of five files, creation times not in listing order. -/
def entFive : List Entry :=
  [⟨"x/a", 3, false⟩, ⟨"x/b", 0, false⟩, ⟨"x/c", 2, false⟩,
   ⟨"x/d", 1, false⟩, ⟨"x/e", 4, false⟩]

/-! Theorems. -/

/-- Every index recorded by the scan loop is at least the loop's starting
index. -/
theorem scrape_loop_trace_index_ge (rm : String → String → Bool) (rOk : Entry → Bool)
    (cfg : Config) (now : Int) :
    ∀ (l : List FeedItem) (i : Nat) (st : RunState),
      ∀ p ∈ (scrape_loop rm rOk cfg now l i st).trace, i ≤ p.1 := by
  intro l
  induction l with
  | nil => intro i st p hp; simp [scrape_loop] at hp
  | cons g rest ih =>
    intro i st p hp
    cases h0 : (scrape_episode_model rm rOk cfg now st g).1 with
    | error e =>
      simp only [scrape_loop, h0] at hp
      simp at hp
    | ok v =>
      by_cases hv : v = Verdict.halt
      · simp only [scrape_loop, h0, hv, if_pos, List.mem_singleton] at hp
        subst hp
        exact Nat.le_refl i
      · simp only [scrape_loop, h0, if_neg hv] at hp
        rcases List.mem_cons.mp hp with h1 | h2
        · subst h1; exact Nat.le_refl i
        · exact Nat.le_trans (Nat.le_succ i) (ih (i + 1) _ p h2)

/-- After the scan loop yields HALT at an index, no larger index appears in the
trace. -/
theorem scrape_loop_halt_is_max (rm : String → String → Bool) (rOk : Entry → Bool)
    (cfg : Config) (now : Int) :
    ∀ (l : List FeedItem) (i : Nat) (st : RunState) (j : Nat),
      (j, Verdict.halt) ∈ (scrape_loop rm rOk cfg now l i st).trace →
      ∀ p ∈ (scrape_loop rm rOk cfg now l i st).trace, p.1 ≤ j := by
  intro l
  induction l with
  | nil => intro i st j hj; simp [scrape_loop] at hj
  | cons g rest ih =>
    intro i st j hj p hp
    cases h0 : (scrape_episode_model rm rOk cfg now st g).1 with
    | error e =>
      simp only [scrape_loop, h0] at hj
      simp at hj
    | ok v =>
      by_cases hv : v = Verdict.halt
      · simp only [scrape_loop, h0, hv, if_pos, List.mem_singleton, Prod.mk.injEq] at hj hp
        subst hp
        dsimp only
        omega
      · simp only [scrape_loop, h0, if_neg hv] at hj hp
        rcases List.mem_cons.mp hj with hj1 | hj2
        · exact absurd (congrArg Prod.snd hj1).symm hv
        · rcases List.mem_cons.mp hp with hp1 | hp2
          · subst hp1
            exact Nat.le_trans (Nat.le_succ i)
              (scrape_loop_trace_index_ge rm rOk cfg now rest (i + 1) _ _ hj2)
          · exact ih (i + 1) _ j hj2 p hp2

/-- Claim C1: for every episode list and configuration, once the scan loop of
`scrape_podcast` obtained the HALT verdict for the episode at index `i`, no
episode at any index greater than `i` is evaluated — every index in the run's
evaluation trace is at most `i` (an episode is admission-checked or downloaded
only inside its trace entry). -/
theorem c1_halt_stops_scan (rm : String → String → Bool) (rOk : Entry → Bool)
    (cfg : Config) (items : List FeedItem) (fs0 : FS)
    (now clock : Int) (i : Nat)
    (hhalt : (i, Verdict.halt) ∈ (scrape_podcast rm rOk cfg items fs0 now clock).trace) :
    ∀ p ∈ (scrape_podcast rm rOk cfg items fs0 now clock).trace, p.1 ≤ i := by
  unfold scrape_podcast at hhalt ⊢
  exact scrape_loop_halt_is_max rm rOk cfg now items 0 _ i hhalt

/-- Witness for C1: a concrete run (no-URL episode, then an already-downloaded
episode with `halt_on_existing`) halts at index 1 and evaluates no index
beyond 1. -/
theorem c1_halt_stops_scan_witness :
    (1, Verdict.halt) ∈ (scrape_podcast rmFalse rOkTrue cfgBase
      [itemNoUrl, itemOne, itemOne] fsExisting 0 10).trace ∧
    ∀ p ∈ (scrape_podcast rmFalse rOkTrue cfgBase
      [itemNoUrl, itemOne, itemOne] fsExisting 0 10).trace, p.1 ≤ 1 :=
  ⟨by decide,
   c1_halt_stops_scan rmFalse rOkTrue cfgBase
     [itemNoUrl, itemOne, itemOne] fsExisting 0 10 1 (by decide)⟩

/-- Claim C5 (refuted — code bug): a run in which no episode yields HALT does
not terminate normally.  On the concrete input of one episode with no download
URL, the loop evaluates the whole list (the single episode, verdict SKIP) and
then `episodes[i]` is executed past the end of the list, raising IndexError;
the DONE state the specification describes is never reached. -/
theorem c5_exhaustion_raises_index_error :
    (scrape_podcast rmFalse rOkTrue cfgBase [itemNoUrl] [] 0 10).trace
        = [(0, Verdict.skip)] ∧
    (scrape_podcast rmFalse rOkTrue cfgBase [itemNoUrl] [] 0 10).outcome
        = RunOutcome.indexError := by
  exact ⟨rfl, rfl⟩

/-- Claim C6 as stated is refuted at a concrete input: for a feed item with no
`<title>` element whose extraction raised, the catch-all handler evaluates
`episode.title.text` while formatting its log message (scrappers.py line 82)
and that access raises AttributeError itself; the exception propagates out of
`scrape_episode` instead of a SKIP return, and the run aborts without
evaluating the next episode. -/
theorem c6_counterexample :
    (scrape_episode_model rmFalse rOkTrue cfgBase 0 st0 itemBad).1
        = Except.error Err.attributeError ∧
    ¬ (scrape_episode_model rmFalse rOkTrue cfgBase 0 st0 itemBad).1
        = Except.ok Verdict.skip ∧
    (scrape_loop rmFalse rOkTrue cfgBase 0 [itemBad, itemOne] 0 st0).outcome
        = RunOutcome.raised Err.attributeError ∧
    (scrape_loop rmFalse rOkTrue cfgBase 0 [itemBad, itemOne] 0 st0).trace = [] := by
  refine ⟨rfl, ?_, rfl, rfl⟩
  intro hcon
  have h1 : (scrape_episode_model rmFalse rOkTrue cfgBase 0 st0 itemBad).1
      = Except.error Err.attributeError := rfl
  rw [h1] at hcon
  exact Except.noConfusion hcon

/-- Claim C6, amended: when the body of `scrape_episode` raises — during
episode data extraction or during the admission check — and the raw feed
item's title is accessible (the handler's log line reads
`episode.title.text`), the exception is caught and the status is SKIP with no
other state change, and the scan loop then continues with the next index
exactly as after any SKIP; for an item without an accessible title the handler
itself raises and the exception aborts the run. -/
theorem c6_amended_exception_becomes_skip (rm : String → String → Bool)
    (rOk : Entry → Bool) (cfg : Config) (now : Int) (st : RunState)
    (item : FeedItem) (t : String)
    (htitle : item.titleText = some t)
    (h : episode_processing_raises rm cfg st now item = true) :
    scrape_episode_model rm rOk cfg now st item = (Except.ok Verdict.skip, st) ∧
    ∀ rest i, scrape_loop rm rOk cfg now (item :: rest) i st =
      ⟨(scrape_loop rm rOk cfg now rest (i + 1) st).state,
       (i, Verdict.skip) :: (scrape_loop rm rOk cfg now rest (i + 1) st).trace,
       (scrape_loop rm rOk cfg now rest (i + 1) st).outcome⟩ := by
  have hhandler : except_handler item st = (Except.ok Verdict.skip, st) := by
    unfold except_handler
    rw [htitle]
  have hmain : scrape_episode_model rm rOk cfg now st item
      = (Except.ok Verdict.skip, st) := by
    cases hex : item.extraction with
    | error e => simp [scrape_episode_model, hex, hhandler]
    | ok ed =>
      cases hc : check_episode rm cfg st.deleteFlag st.fs now ed with
      | error e => simp [scrape_episode_model, hex, hc, hhandler]
      | ok vp =>
        exfalso
        simp [episode_processing_raises, hex, hc] at h
  refine ⟨hmain, ?_⟩
  intro rest i
  simp [scrape_loop, hmain]

/-- Witness for the amended C6: with a path template that references
`{season}`, a seasonless episode whose raw title is accessible: the admission
check raises KeyError, and the processing step yields SKIP with the state
unchanged. -/
theorem c6_amended_exception_becomes_skip_witness :
    itemOne.titleText = some "t" ∧
    episode_processing_raises rmFalse cfgSeason st0 0 itemOne = true ∧
    scrape_episode_model rmFalse rOkTrue cfgSeason 0 st0 itemOne
      = (Except.ok Verdict.skip, st0) :=
  ⟨rfl, by decide,
   (c6_amended_exception_becomes_skip rmFalse rOkTrue cfgSeason 0 st0 itemOne "t"
     rfl (by decide)).1⟩

/-- Creating a filesystem entry changes neither the deletion flag nor the
deletion trace. -/
theorem createEntry_flag_deletions (st : RunState) (p : String) (b : Bool) :
    (createEntry st p b).deleteFlag = st.deleteFlag ∧
    (createEntry st p b).deletions = st.deletions :=
  ⟨rfl, rfl⟩

/-- With the deletion flag off, `__download_episode` performs no deletion:
the flag stays off and the deletion trace is unchanged. -/
theorem download_episode_no_delete (rOk : Entry → Bool) (cfg : Config)
    (st : RunState) (dpo : Option String) (h : st.deleteFlag = false) :
    (download_episode rOk cfg st dpo).1.deleteFlag = false ∧
    (download_episode rOk cfg st dpo).1.deletions = st.deletions := by
  cases dpo with
  | none => exact ⟨h, rfl⟩
  | some dp =>
    simp only [download_episode, createEntry, h, apply_ite RunState.deleteFlag,
      apply_ite RunState.deletions, ite_self, Bool.false_eq_true, and_false, if_false]
    split <;> constructor <;> (split <;> simp [h])

/-- The except handler returns the state it was given unchanged (it only logs
or raises). -/
theorem except_handler_state (item : FeedItem) (st : RunState) :
    (except_handler item st).2 = st := by
  rcases item with ⟨tt, ex⟩
  cases tt <;> rfl

/-- The except handler never returns the HALT status: it yields SKIP or
raises. -/
theorem except_handler_not_halt (item : FeedItem) (st : RunState) :
    (except_handler item st).1 ≠ Except.ok Verdict.halt := by
  rcases item with ⟨tt, ex⟩
  cases tt <;> simp [except_handler]

/-- With the deletion flag off, one episode's processing performs no deletion:
the flag stays off and the deletion trace is unchanged. -/
theorem scrape_episode_no_delete (rm : String → String → Bool) (rOk : Entry → Bool)
    (cfg : Config) (now : Int) (st : RunState) (item : FeedItem)
    (h : st.deleteFlag = false) :
    (scrape_episode_model rm rOk cfg now st item).2.deleteFlag = false ∧
    (scrape_episode_model rm rOk cfg now st item).2.deletions = st.deletions := by
  cases hex : item.extraction with
  | error e =>
    simp only [scrape_episode_model, hex]
    refine ⟨?_, ?_⟩
    · show (except_handler item st).2.deleteFlag = false
      rw [except_handler_state item st]; exact h
    · show (except_handler item st).2.deletions = st.deletions
      rw [except_handler_state item st]
  | ok ed =>
    simp only [scrape_episode_model, hex]
    cases hc : check_episode rm cfg st.deleteFlag st.fs now ed with
    | error e =>
      refine ⟨?_, ?_⟩
      · show (except_handler item st).2.deleteFlag = false
        rw [except_handler_state item st]; exact h
      · show (except_handler item st).2.deletions = st.deletions
        rw [except_handler_state item st]
    | ok vp =>
      obtain ⟨v, dpo⟩ := vp
      by_cases hv : v = Verdict.ok
      · simp only [hv, if_pos rfl]
        rcases hdl : download_episode rOk cfg st dpo with ⟨st2, err⟩
        have hpres := download_episode_no_delete rOk cfg st dpo h
        rw [hdl] at hpres
        cases err with
        | none => exact hpres
        | some e =>
          refine ⟨?_, ?_⟩
          · show (except_handler item st2).2.deleteFlag = false
            rw [except_handler_state item st2]; exact hpres.1
          · show (except_handler item st2).2.deletions = st.deletions
            rw [except_handler_state item st2]; exact hpres.2
      · simp only [if_neg hv]
        exact ⟨h, trivial⟩

/-- With the deletion flag off at loop entry, the whole scan loop leaves the
deletion trace unchanged. -/
theorem scrape_loop_no_delete (rm : String → String → Bool) (rOk : Entry → Bool)
    (cfg : Config) (now : Int) :
    ∀ (l : List FeedItem) (i : Nat) (st : RunState),
      st.deleteFlag = false →
      (scrape_loop rm rOk cfg now l i st).state.deletions = st.deletions := by
  intro l
  induction l with
  | nil => intro i st h; rfl
  | cons g rest ih =>
    intro i st h
    have hep := scrape_episode_no_delete rm rOk cfg now st g h
    cases h0 : (scrape_episode_model rm rOk cfg now st g).1 with
    | error e =>
      simp only [scrape_loop, h0]
      exact hep.2
    | ok v =>
      by_cases hv : v = Verdict.halt
      · simp only [scrape_loop, h0, hv, if_pos]
        exact hep.2
      · simp only [scrape_loop, h0, if_neg hv]
        rw [ih (i + 1) _ hep.1]
        exact hep.2

/-- Claim C4: for every configuration (deletion settings included), if the
podcast home directory `{save_root}/{podcast_name}` does not exist when
`scrape_podcast` starts, then no file deletion is performed at any point of
that run: the run's deletion trace stays empty. -/
theorem c4_first_run_never_deletes (rm : String → String → Bool) (rOk : Entry → Bool)
    (cfg : Config) (items : List FeedItem) (fs0 : FS) (now clock : Int)
    (h : pathExists fs0 (joinTwo cfg.save_path cfg.name) = false) :
    (scrape_podcast rm rOk cfg items fs0 now clock).state.deletions = [] := by
  simp only [scrape_podcast]
  rw [h]
  simpa using scrape_loop_no_delete rm rOk cfg now items 0 ⟨fs0, false, [], clock⟩ rfl

/-- Witness for C4: a run with a one-episode limit and deletion on overflow
enabled, over a filesystem with no podcast home directory: the episode is
downloaded and nothing is ever deleted. -/
theorem c4_first_run_never_deletes_witness :
    pathExists [] (joinTwo cfgDel.save_path cfgDel.name) = false ∧
    (scrape_podcast rmFalse rOkTrue cfgDel [itemOne] [] 0 10).state.deletions = [] :=
  ⟨by decide,
   c4_first_run_never_deletes rmFalse rOkTrue cfgDel [itemOne] [] 0 10 (by decide)⟩

/-- Claim C3: for an episode that passes the URL, exclusion, inclusion,
already-downloaded and age checks, if a positive `max_episodes` is configured,
the target directory exists and holds at least that many entries, and deletion
on overflow is off, then `__check_episode` returns HALT. -/
theorem c3_capacity_halt (rm : String → String → Bool) (cfg : Config) (fs : FS)
    (now : Int) (ed : EpisodeData) (dp : String)
    (hurl : ed.url ≠ none)
    (hexcl : ¬(cfg.skip_if_matching ≠ [] ∧
      matches_any rm ed.unparsed_title cfg.skip_if_matching = true))
    (hincl : ¬(cfg.fetch_if_matching ≠ [] ∧
      matches_any rm ed.unparsed_title cfg.fetch_if_matching = false))
    (hdet : determine_download_path cfg ed = Except.ok dp)
    (hnew : pathExists fs dp = false)
    (hage : ¬(0 < cfg.max_episode_age_in_days ∧
      now - cfg.max_episode_age_in_days * 86400 > ed.published_date))
    (hpos : 0 < cfg.max_episodes)
    (hdir : pathExists fs (dirname dp) = true)
    (hcount : cfg.max_episodes ≤ ((listdir fs (dirname dp)).length : Int)) :
    check_episode rm cfg false fs now ed = Except.ok (Verdict.halt, some dp) := by
  unfold check_episode
  rw [if_neg hurl, if_neg hexcl, if_neg hincl, hdet]
  dsimp only
  rw [hnew]
  rw [if_neg (by simp), if_neg hage]
  have hcur : (if pathExists fs (dirname dp) = true then (listdir fs (dirname dp)).length else 0)
      = (listdir fs (dirname dp)).length := by simp [hdir]
  rw [hcur]
  rw [if_pos ⟨by omega, ⟨hpos, hcount⟩, rfl⟩]

/-- Witness for C3: with `max_episodes = 5`, a directory already holding five
files, and deletion disabled, the verdict is HALT. -/
theorem c3_capacity_halt_witness :
    check_episode rmFalse cfgFive false fsFive 100 edOne
      = Except.ok (Verdict.halt, some "r/p/1") :=
  c3_capacity_halt rmFalse cfgFive fsFive 100 edOne "r/p/1"
    (by decide) (by decide) (by decide) (by rfl) (by decide) (by decide)
    (by decide) (by decide) (by decide)

/-- Claim C7: for an episode that passes the URL, exclusion, inclusion and
already-downloaded checks, if a positive `max_episode_age_in_days` is
configured and the published timestamp is older than now minus that many days,
then `__check_episode` returns HALT. -/
theorem c7_age_halt (rm : String → String → Bool) (cfg : Config) (deleteFlag : Bool)
    (fs : FS) (now : Int) (ed : EpisodeData) (dp : String)
    (hurl : ed.url ≠ none)
    (hexcl : ¬(cfg.skip_if_matching ≠ [] ∧
      matches_any rm ed.unparsed_title cfg.skip_if_matching = true))
    (hincl : ¬(cfg.fetch_if_matching ≠ [] ∧
      matches_any rm ed.unparsed_title cfg.fetch_if_matching = false))
    (hdet : determine_download_path cfg ed = Except.ok dp)
    (hnew : pathExists fs dp = false)
    (hagepos : 0 < cfg.max_episode_age_in_days)
    (hold : now - cfg.max_episode_age_in_days * 86400 > ed.published_date) :
    check_episode rm cfg deleteFlag fs now ed = Except.ok (Verdict.halt, some dp) := by
  unfold check_episode
  rw [if_neg hurl, if_neg hexcl, if_neg hincl, hdet]
  dsimp only
  rw [hnew]
  rw [if_neg (by simp), if_pos ⟨hagepos, hold⟩]

/-- Witness for C7: with `max_episode_age_in_days = 30` and a publication
timestamp forty-five days in the past, the verdict is HALT. -/
theorem c7_age_halt_witness :
    check_episode rmFalse cfgAge30 false [] (45 * 86400) edOne
      = Except.ok (Verdict.halt, some "r/p/1") :=
  c7_age_halt rmFalse cfgAge30 false [] (45 * 86400) edOne "r/p/1"
    (by decide) (by decide) (by decide) (by rfl) (by decide) (by decide) (by decide)

/-- Claim C10: for an episode that passes the URL, exclusion, inclusion,
already-downloaded and age checks, if the directory of the computed download
path does not exist, `__check_episode` treats it as holding zero files and
returns the verdict OK (no exception, and in particular never HALT from the
capacity check), for every `max_episodes` value and deletion setting. -/
theorem c10_missing_dir_is_ok (rm : String → String → Bool) (cfg : Config)
    (deleteFlag : Bool) (fs : FS) (now : Int) (ed : EpisodeData) (dp : String)
    (hurl : ed.url ≠ none)
    (hexcl : ¬(cfg.skip_if_matching ≠ [] ∧
      matches_any rm ed.unparsed_title cfg.skip_if_matching = true))
    (hincl : ¬(cfg.fetch_if_matching ≠ [] ∧
      matches_any rm ed.unparsed_title cfg.fetch_if_matching = false))
    (hdet : determine_download_path cfg ed = Except.ok dp)
    (hnew : pathExists fs dp = false)
    (hage : ¬(0 < cfg.max_episode_age_in_days ∧
      now - cfg.max_episode_age_in_days * 86400 > ed.published_date))
    (hnodir : pathExists fs (dirname dp) = false) :
    check_episode rm cfg deleteFlag fs now ed = Except.ok (Verdict.ok, some dp) := by
  unfold check_episode
  rw [if_neg hurl, if_neg hexcl, if_neg hincl, hdet]
  dsimp only
  rw [hnew]
  rw [if_neg (by simp), if_neg hage]
  have hcur : (if pathExists fs (dirname dp) = true then (listdir fs (dirname dp)).length else 0)
      = 0 := by simp [hnodir]
  rw [hcur]
  rw [if_neg]
  intro hcon
  rcases hcon with ⟨hzero, _, _⟩
  simp at hzero

/-- Witness for C10: with `max_episodes = 5`, deletion disabled, and an empty
filesystem (the podcast directory was never created), the verdict is OK. -/
theorem c10_missing_dir_is_ok_witness :
    check_episode rmFalse cfgFive false [] 0 edOne
      = Except.ok (Verdict.ok, some "r/p/1") :=
  c10_missing_dir_is_ok rmFalse cfgFive false [] 0 edOne "r/p/1"
    (by decide) (by decide) (by decide) (by rfl) (by decide) (by decide) (by decide)

/-- Claim C8 as stated is false on the code: two calls to
`__determine_download_path` agreeing on save root, podcast name, resolved
title, season, episode number and path template — but differing in the
configured episode-number pad width — return different path strings
(`r/p/1` versus `r/p/01`). -/
theorem c8_counterexample :
    cfgBase.save_path = cfgPadTwo.save_path ∧
    cfgBase.name = cfgPadTwo.name ∧
    cfgBase.download_path_format = cfgPadTwo.download_path_format ∧
    ¬ determine_download_path cfgBase edOne = determine_download_path cfgPadTwo edOne := by
  refine ⟨rfl, rfl, rfl, ?_⟩
  intro hcon
  have h1 : determine_download_path cfgBase edOne = Except.ok "r/p/1" := rfl
  have h2 : determine_download_path cfgPadTwo edOne = Except.ok "r/p/01" := rfl
  rw [h1, h2] at hcon
  injection hcon with hs
  exact absurd hs (by decide)

/-- Claim C8, amended: the download path is a deterministic function of
save root, podcast name, resolved title, season, episode number, path
template, and the two zero-pad widths — two calls agreeing on all of these
return the identical path string, regardless of call count or any other
state. -/
theorem c8_amended_path_deterministic (c1 c2 : Config) (e1 e2 : EpisodeData)
    (hsave : c1.save_path = c2.save_path) (hname : c1.name = c2.name)
    (htitle : e1.title = e2.title) (hseason : e1.season = e2.season)
    (hep : e1.episode = e2.episode)
    (htmpl : c1.download_path_format = c2.download_path_format)
    (hsw : c1.min_season_width = c2.min_season_width)
    (hew : c1.min_ep_number_width = c2.min_ep_number_width) :
    determine_download_path c1 e1 = determine_download_path c2 e2 := by
  unfold determine_download_path
  rw [hep, htitle, hseason, htmpl, hsw, hew, hsave, hname]

/-- Witness for the amended C8: two configurations differing only in fields
the path does not depend on produce the identical path. -/
theorem c8_amended_path_deterministic_witness :
    determine_download_path cfgBase edOne = determine_download_path cfgIrrelevant edOne :=
  c8_amended_path_deterministic cfgBase cfgIrrelevant edOne edOne
    rfl rfl rfl rfl rfl rfl rfl rfl

/-- When every removal succeeds, the removal loop removes the whole scheduled
list and raises nothing. -/
theorem removeLoop_all_ok (rOk : Entry → Bool) :
    ∀ l : List Entry, (∀ e ∈ l, rOk e = true) → removeLoop rOk l = (l, none) := by
  intro l
  induction l with
  | nil => intro h; rfl
  | cons e rest ih =>
    intro h
    simp only [removeLoop, h e (List.mem_cons_self e rest), if_true]
    rw [ih (fun x hx => h x (List.mem_cons_of_mem e hx))]

/-- Claim C2 as stated is refuted at a concrete input: a directory holding
N = 2 files with `max_episode_count` K = 1 and deletion enabled.  The claim
demands exactly N - K = 1 deletion leaving K = 1 file; the routine computes
`over_limit = 2 - (1 + 1) = 0` and deletes nothing, leaving both files. -/
theorem c2_counterexample :
    (delete_old_core rOkTrue 1 true entPair).1.length = 0 ∧
    (delete_old_core rOkTrue 1 true entPair).1.length ≠ entPair.length - 1 ∧
    (residue entPair (delete_old_core rOkTrue 1 true entPair).1).length = 2 := by
  decide

/-- Claim C2, amended: with N files (no subdirectories, distinct entries), a
positive limit K satisfying K + 1 < N, and deletion enabled, one call to the
retention routine deletes exactly N - (K + 1) files — each deleted file no
newer than any survivor, i.e. the oldest by creation time — so that exactly
the K + 1 most recently created files remain, and no removal raises.  (When
N ≤ K + 1 the overflow is non-positive and the call is a no-op, so the
directory is trimmed to K + 1 files, not to K as the claim states.) -/
theorem c2_amended_retention (rOk : Entry → Bool) (K : Nat) (entries : List Entry)
    (hOk : ∀ e, rOk e = true) (hK : 0 < K)
    (hfiles : ∀ e ∈ entries, e.isDir = false)
    (hnodup : entries.Nodup)
    (hN : K + 1 < entries.length) :
    (delete_old_core rOk (K : Int) true entries).1.length = entries.length - (K + 1) ∧
    (delete_old_core rOk (K : Int) true entries).2 = none ∧
    (residue entries (delete_old_core rOk (K : Int) true entries).1).length = K + 1 ∧
    ∀ d ∈ (delete_old_core rOk (K : Int) true entries).1,
      ∀ r ∈ residue entries (delete_old_core rOk (K : Int) true entries).1,
        d.ctime ≤ r.ctime := by
  have hover : (0 : Int) < (entries.length : Int) - ((K : Int) + 1) := by omega
  have hfilter : entries.filter (fun e => !e.isDir) = entries :=
    List.filter_eq_self.mpr (fun a ha => by simp [hfiles a ha])
  have hm : ((entries.length : Int) - ((K : Int) + 1)).toNat = entries.length - (K + 1) := by
    omega
  have hsched : scheduled_deletions (K : Int) entries
      = (List.insertionSort (fun a b => a.ctime ≤ b.ctime) entries).take
          (entries.length - (K + 1)) := by
    unfold scheduled_deletions
    rw [hfilter, hm]
  have hcore : delete_old_core rOk (K : Int) true entries
      = ((List.insertionSort (fun a b => a.ctime ≤ b.ctime) entries).take
          (entries.length - (K + 1)), none) := by
    unfold delete_old_core
    dsimp only
    rw [if_pos ⟨rfl, hover⟩, hsched, removeLoop_all_ok rOk _ (fun e _ => hOk e)]
  have hperm : (List.insertionSort (fun a b : Entry => a.ctime ≤ b.ctime) entries).Perm entries :=
    List.perm_insertionSort _ entries
  have hSlen : (List.insertionSort (fun a b : Entry => a.ctime ≤ b.ctime) entries).length
      = entries.length := hperm.length_eq
  have hlen1 : ((List.insertionSort (fun a b : Entry => a.ctime ≤ b.ctime) entries).take
      (entries.length - (K + 1))).length = entries.length - (K + 1) := by
    rw [List.length_take, hSlen]
    omega
  have happ : (List.insertionSort (fun a b : Entry => a.ctime ≤ b.ctime) entries).take
        (entries.length - (K + 1)) ++
      (List.insertionSort (fun a b : Entry => a.ctime ≤ b.ctime) entries).drop
        (entries.length - (K + 1))
      = List.insertionSort (fun a b : Entry => a.ctime ≤ b.ctime) entries :=
    List.take_append_drop _ _
  have hSnodup : (List.insertionSort (fun a b : Entry => a.ctime ≤ b.ctime) entries).Nodup :=
    hperm.symm.nodup hnodup
  have happnodup : ((List.insertionSort (fun a b : Entry => a.ctime ≤ b.ctime) entries).take
        (entries.length - (K + 1)) ++
      (List.insertionSort (fun a b : Entry => a.ctime ≤ b.ctime) entries).drop
        (entries.length - (K + 1))).Nodup := by
    rw [happ]; exact hSnodup
  have hdisj : ∀ a ∈ (List.insertionSort (fun a b : Entry => a.ctime ≤ b.ctime) entries).drop
        (entries.length - (K + 1)),
      a ∉ (List.insertionSort (fun a b : Entry => a.ctime ≤ b.ctime) entries).take
        (entries.length - (K + 1)) := by
    intro a hdrop htake
    exact (List.nodup_append.mp happnodup).2.2 htake hdrop
  have hfS : (List.insertionSort (fun a b : Entry => a.ctime ≤ b.ctime) entries).filter
        (fun e => decide (e ∉ (List.insertionSort (fun a b : Entry => a.ctime ≤ b.ctime)
          entries).take (entries.length - (K + 1))))
      = (List.insertionSort (fun a b : Entry => a.ctime ≤ b.ctime) entries).drop
        (entries.length - (K + 1)) := by
    have h1 : ((List.insertionSort (fun a b : Entry => a.ctime ≤ b.ctime) entries).take
          (entries.length - (K + 1))).filter
          (fun e => decide (e ∉ (List.insertionSort (fun a b : Entry => a.ctime ≤ b.ctime)
            entries).take (entries.length - (K + 1)))) = [] :=
      List.filter_eq_nil_iff.mpr (fun a ha => by simp [ha])
    have h2 : ((List.insertionSort (fun a b : Entry => a.ctime ≤ b.ctime) entries).drop
          (entries.length - (K + 1))).filter
          (fun e => decide (e ∉ (List.insertionSort (fun a b : Entry => a.ctime ≤ b.ctime)
            entries).take (entries.length - (K + 1))))
        = (List.insertionSort (fun a b : Entry => a.ctime ≤ b.ctime) entries).drop
          (entries.length - (K + 1)) :=
      List.filter_eq_self.mpr (fun a ha => by simp [hdisj a ha])
    have hx : ((List.insertionSort (fun a b : Entry => a.ctime ≤ b.ctime) entries).take
          (entries.length - (K + 1)) ++
        (List.insertionSort (fun a b : Entry => a.ctime ≤ b.ctime) entries).drop
          (entries.length - (K + 1))).filter
          (fun e => decide (e ∉ (List.insertionSort (fun a b : Entry => a.ctime ≤ b.ctime)
            entries).take (entries.length - (K + 1))))
        = (List.insertionSort (fun a b : Entry => a.ctime ≤ b.ctime) entries).filter
          (fun e => decide (e ∉ (List.insertionSort (fun a b : Entry => a.ctime ≤ b.ctime)
            entries).take (entries.length - (K + 1)))) := by
      rw [happ]
    rw [← hx, List.filter_append, h1, h2, List.nil_append]
  have hresperm : (residue entries
        ((List.insertionSort (fun a b : Entry => a.ctime ≤ b.ctime) entries).take
          (entries.length - (K + 1)))).Perm
      ((List.insertionSort (fun a b : Entry => a.ctime ≤ b.ctime) entries).drop
        (entries.length - (K + 1))) := by
    unfold residue
    exact hfS ▸ (List.Perm.filter _ hperm.symm)
  have hreslen : (residue entries
        ((List.insertionSort (fun a b : Entry => a.ctime ≤ b.ctime) entries).take
          (entries.length - (K + 1)))).length = K + 1 := by
    rw [hresperm.length_eq, List.length_drop, hSlen]
    omega
  haveI : IsTotal Entry (fun a b : Entry => a.ctime ≤ b.ctime) :=
    ⟨fun a b => le_total a.ctime b.ctime⟩
  haveI : IsTrans Entry (fun a b : Entry => a.ctime ≤ b.ctime) :=
    ⟨fun a b c hab hbc => le_trans hab hbc⟩
  have hsorted : List.Pairwise (fun a b : Entry => a.ctime ≤ b.ctime)
      ((List.insertionSort (fun a b : Entry => a.ctime ≤ b.ctime) entries).take
        (entries.length - (K + 1)) ++
      (List.insertionSort (fun a b : Entry => a.ctime ≤ b.ctime) entries).drop
        (entries.length - (K + 1))) := by
    rw [happ]
    exact List.sorted_insertionSort _ entries
  rw [hcore]
  refine ⟨hlen1, rfl, hreslen, ?_⟩
  intro d hd r hr
  unfold residue at hr
  have hr2 := List.mem_filter.mp hr
  have hrS : r ∈ List.insertionSort (fun a b : Entry => a.ctime ≤ b.ctime) entries :=
    hperm.symm.mem_iff.mp hr2.1
  have hrnot : r ∉ (List.insertionSort (fun a b : Entry => a.ctime ≤ b.ctime) entries).take
      (entries.length - (K + 1)) := of_decide_eq_true hr2.2
  have hrdrop : r ∈ (List.insertionSort (fun a b : Entry => a.ctime ≤ b.ctime) entries).drop
      (entries.length - (K + 1)) := by
    rcases List.mem_append.mp (by rw [happ]; exact hrS) with hcase | hcase
    · exact absurd hcase hrnot
    · exact hcase
  exact (List.pairwise_append.mp hsorted).2.2 d hd r hrdrop

/-- Witness for the amended C2: a directory of four files with limit K = 1:
the two oldest are deleted, both older than each of the two survivors, and
the two newest remain. -/
theorem c2_amended_retention_witness :
    (delete_old_core rOkTrue (1 : Int) true entFour).1.length = entFour.length - (1 + 1) ∧
    (delete_old_core rOkTrue (1 : Int) true entFour).2 = none ∧
    (residue entFour (delete_old_core rOkTrue (1 : Int) true entFour).1).length = 1 + 1 ∧
    ∀ d ∈ (delete_old_core rOkTrue (1 : Int) true entFour).1,
      ∀ r ∈ residue entFour (delete_old_core rOkTrue (1 : Int) true entFour).1,
        d.ctime ≤ r.ctime :=
  c2_amended_retention rOkTrue 1 entFour (fun _ => rfl) (by decide) (by decide)
    (by decide) (by decide)

/-- The removal loop performs the deletions before the first failing one, then
raises: nothing after the failure is attempted. -/
theorem removeLoop_first_failure (rOk : Entry → Bool) :
    ∀ (pre : List Entry) (failEntry : Entry) (post : List Entry),
      (∀ e ∈ pre, rOk e = true) → rOk failEntry = false →
      removeLoop rOk (pre ++ failEntry :: post) = (pre, some failEntry) := by
  intro pre
  induction pre with
  | nil =>
    intro failEntry post hpre hfail
    simp [removeLoop, hfail]
  | cons e rest ih =>
    intro failEntry post hpre hfail
    simp only [List.cons_append, removeLoop, hpre e (List.mem_cons_self e rest), if_true,
      List.append_eq]
    rw [ih failEntry post (fun x hx => hpre x (List.mem_cons_of_mem e hx)) hfail]

/-- An exception raised by the per-episode body never yields the HALT status:
if one episode's processing returned HALT, that HALT came from an admission
verdict of `__check_episode`, not from a raised error (the catch-all either
converts a raise to SKIP or re-raises). -/
theorem scrape_episode_halt_only_from_check (rm : String → String → Bool)
    (rOk : Entry → Bool) (cfg : Config) (now : Int) (st : RunState)
    (item : FeedItem) :
    (scrape_episode_model rm rOk cfg now st item).1 ≠ Except.ok Verdict.halt ∨
    ∃ ed vp, item.extraction = Except.ok ed ∧
      check_episode rm cfg st.deleteFlag st.fs now ed = Except.ok vp ∧
      vp.1 = Verdict.halt := by
  cases hex : item.extraction with
  | error e =>
    left
    simp only [scrape_episode_model, hex]
    exact except_handler_not_halt item st
  | ok ed =>
    cases hc : check_episode rm cfg st.deleteFlag st.fs now ed with
    | error e =>
      left
      simp only [scrape_episode_model, hex, hc]
      exact except_handler_not_halt item st
    | ok vp =>
      obtain ⟨v, dpo⟩ := vp
      by_cases hv : v = Verdict.halt
      · right; exact ⟨ed, (v, dpo), rfl, hc, hv⟩
      · left
        simp only [scrape_episode_model, hex, hc]
        by_cases hvo : v = Verdict.ok
        · simp only [hvo, if_pos rfl]
          cases hdl : download_episode rOk cfg st dpo with
          | mk st2 err =>
            cases err with
            | none => simp
            | some e => exact except_handler_not_halt item st2
        · simp [hvo, hv]

/-- Claim C9 as stated is refuted at a concrete input: five files with limit
1 schedule the three oldest for deletion; removing the second-oldest fails.
The failure is not handled inside the routine — the OSError propagates out —
and the remaining scheduled deletion (the third-oldest file) is never
attempted: only the oldest file was removed. -/
theorem c9_counterexample :
    (delete_old_core rOkNotD 1 true entFive).2 = some ⟨"x/d", 1, false⟩ ∧
    (delete_old_core rOkNotD 1 true entFive).1 = [⟨"x/b", 0, false⟩] ∧
    ⟨"x/c", 2, false⟩ ∈ scheduled_deletions 1 entFive ∧
    ⟨"x/c", 2, false⟩ ∉ (delete_old_core rOkNotD 1 true entFive).1 := by
  decide

/-- Claim C9, amended: when removing an individual file raises, the files that
were scheduled before it have been removed, the exception propagates out of
the retention routine — so the remaining scheduled deletions are not
attempted — and the scrape run is still not aborted: the per-episode handler
converts any such raised error into SKIP, so a run can only stop on an
intentional admission HALT. -/
theorem c9_amended_delete_failure (rOk : Entry → Bool) (maxEp : Int)
    (entries pre post : List Entry) (failEntry : Entry)
    (hover : 0 < (entries.length : Int) - (maxEp + 1))
    (hsched : scheduled_deletions maxEp entries = pre ++ failEntry :: post)
    (hpre : ∀ e ∈ pre, rOk e = true) (hfail : rOk failEntry = false) :
    (delete_old_core rOk maxEp true entries).1 = pre ∧
    (delete_old_core rOk maxEp true entries).2 = some failEntry ∧
    ∀ (rm : String → String → Bool) (rOk2 : Entry → Bool) (cfg : Config)
      (now : Int) (st : RunState) (item : FeedItem),
      (scrape_episode_model rm rOk2 cfg now st item).1 ≠ Except.ok Verdict.halt ∨
      ∃ ed vp, item.extraction = Except.ok ed ∧
        check_episode rm cfg st.deleteFlag st.fs now ed = Except.ok vp ∧
        vp.1 = Verdict.halt := by
  have hcore : delete_old_core rOk maxEp true entries = (pre, some failEntry) := by
    unfold delete_old_core
    dsimp only
    rw [if_pos ⟨rfl, hover⟩, hsched, removeLoop_first_failure rOk pre failEntry post hpre hfail]
  exact ⟨by rw [hcore], by rw [hcore],
    fun rm rOk2 cfg now st item => scrape_episode_halt_only_from_check rm rOk2 cfg now st item⟩

/-- Witness for the amended C9: the concrete five-file directory with limit 1
and a removal oracle failing on the second-oldest file: the oldest alone is
removed and the OSError carries the failing file. -/
theorem c9_amended_delete_failure_witness :
    (delete_old_core rOkNotD 1 true entFive).1 = [⟨"x/b", 0, false⟩] ∧
    (delete_old_core rOkNotD 1 true entFive).2 = some ⟨"x/d", 1, false⟩ ∧
    ∀ (rm : String → String → Bool) (rOk2 : Entry → Bool) (cfg : Config)
      (now : Int) (st : RunState) (item : FeedItem),
      (scrape_episode_model rm rOk2 cfg now st item).1 ≠ Except.ok Verdict.halt ∨
      ∃ ed vp, item.extraction = Except.ok ed ∧
        check_episode rm cfg st.deleteFlag st.fs now ed = Except.ok vp ∧
        vp.1 = Verdict.halt :=
  c9_amended_delete_failure rOkNotD 1 entFive
    [⟨"x/b", 0, false⟩] [⟨"x/c", 2, false⟩] ⟨"x/d", 1, false⟩
    (by decide) (by decide) (by decide) (by decide)
